import Mathlib

/-!
# Verification of the Madcow 5x5 progression engine (src/app.py)

Shallow embedding of the computational core of `src/app.py`:
the rounder (`custom_round`), the ramp generator (`get_madcow_ramps`),
the plate breakdown (`get_plate_breakdown`), the progression lookup
(`get_stats`) and the weekly-plan arithmetic of the three tabs.

Real-valued Python arithmetic is modelled exactly over `ℚ`; Python's
built-in banker's rounding `round` is modelled by `pyRound`; code that can
raise an exception (`ZeroDivisionError` in `custom_round` when the base is
zero) is modelled with `Except`.
-/

/-- Python's built-in `round` on a real value: round half to even
(banker's rounding), as used by `custom_round` in src/app.py line 46. -/
def pyRound (q : ℚ) : ℤ :=
  if q - ⌊q⌋ < 1/2 then ⌊q⌋
  else if 1/2 < q - ⌊q⌋ then ⌊q⌋ + 1
  else if ⌊q⌋ % 2 = 0 then ⌊q⌋ else ⌊q⌋ + 1

/-- src/app.py lines 45-46: `def custom_round(x, base=5): return (base * round(float(x)/base))`.
When `base = 0` the Python division raises `ZeroDivisionError`, modelled as
the `Except.error` branch; no guard exists in the source. -/
def custom_round (x : ℚ) (base : ℚ) : Except String ℚ :=
  if base = 0 then Except.error "ZeroDivisionError"
  else Except.ok (base * pyRound (x / base))

/-- src/app.py lines 48-50: `get_madcow_ramps(top_weight, round_to)` maps the
fixed ladder `[0.50, 0.625, 0.75, 0.875]` over `custom_round`. -/
def get_madcow_ramps (top_weight round_to : ℚ) : Except String (List ℚ) :=
  ([0.50, 0.625, 0.75, 0.875] : List ℚ).mapM (fun i => custom_round (top_weight * i) round_to)

/-- Python `round(x, 2)`: banker's rounding to two decimal places,
used on `remaining` in src/app.py line 63. -/
def roundTo2 (q : ℚ) : ℚ := (pyRound (q * 100) : ℚ) / 100

/-- The three shapes of string src/app.py's `get_plate_breakdown` returns:
`"Empty Bar"`, `"Bar Only"`, or the joined `count x plate` list. -/
inductive PlateBreakdown where
  | emptyBar : PlateBreakdown
  | barOnly : PlateBreakdown
  | plates : List (ℚ × ℕ) → PlateBreakdown
deriving DecidableEq

/-- The greedy loop of src/app.py lines 58-63: for each plate,
`count = int(remaining // plate)`; if positive, emit `(plate, count)`,
subtract `count * plate` and re-round the remainder to 2 decimals. -/
def greedyPlates : List ℚ → ℚ → List (ℚ × ℕ)
  | [], _ => []
  | p :: rest, remaining =>
    let count : ℤ := ⌊remaining / p⌋
    if 0 < count then
      (p, count.toNat) :: greedyPlates rest (roundTo2 (remaining - count * p))
    else
      greedyPlates rest remaining

/-- src/app.py line 54: the fixed descending denomination set. -/
def available_plates : List ℚ := [45, 35, 25, 10, 5, 2.5, 1, 0.5]

/-- src/app.py lines 52-64: `get_plate_breakdown(target_weight, bar_weight)`. -/
def get_plate_breakdown (target_weight bar_weight : ℚ) : PlateBreakdown :=
  if target_weight ≤ bar_weight then PlateBreakdown.emptyBar
  else
    let l := greedyPlates available_plates ((target_weight - bar_weight) / 2)
    if l = [] then PlateBreakdown.barOnly else PlateBreakdown.plates l

/-- Total weight of one side of the bar: sum of `denomination * count`
over the emitted pairs. -/
def sumPlates (l : List (ℚ × ℕ)) : ℚ := (l.map (fun pc => pc.1 * (pc.2 : ℚ))).sum

/-- A per-lifter, per-lift baseline record: one row of the workout table. -/
structure LiftRecord where
  user : String
  lift : String
  max : ℚ
  increment : ℚ
deriving DecidableEq

/-- The progression formula of src/app.py line 151:
`Max * ((1 + Increment/100) ** (week - 4))`. -/
def current_max (baselineMax weeklyIncrementPct : ℚ) (week : ℤ) : ℚ :=
  baselineMax * (1 + weeklyIncrementPct / 100) ^ (week - 4)

/-- src/app.py lines 145-154: `get_stats(lift_name)` selects the first row of
the table matching the current user and lift, and returns the projected max
and the increment. The bare `except: return 0, 0` catches both the
`IndexError` of a missing row (`iloc[0]` on an empty frame) and the
`ZeroDivisionError` of `0.0 ** negative` (increment = -100 before week 4). -/
def get_stats (table : List LiftRecord) (current_user lift_name : String) (week : ℤ) : ℚ × ℚ :=
  match table.find? (fun r => r.user == current_user && r.lift == lift_name) with
  | some row =>
      if 1 + row.increment / 100 = 0 ∧ week < 4 then (0, 0)
      else (current_max row.max row.increment week, row.increment)
  | none => (0, 0)

/-- src/app.py line 163: Monday's (Day A) top set for a lift. -/
def monday_top (m_max round_val : ℚ) : Except String ℚ :=
  custom_round m_max round_val

/-- src/app.py line 186: Friday's triple weight,
`custom_round(mon_max * (1 + (inc / 100)), round_val)`. -/
def friday_triple (mon_max inc round_val : ℚ) : Except String ℚ :=
  custom_round (mon_max * (1 + inc / 100)) round_val

/-- src/app.py lines 172-177, Wednesday's squat card:
`sq_wed_top = custom_round(sq_max * 0.75, round_val)`, then
`top = custom_round(sq_wed_top, round_val)` and
`sets = [custom_round(top * i, round_val) for i in [0.5, 0.625, 0.75, 1.0]]`. -/
def wed_squat_sets (sq_max round_val : ℚ) : Except String (List ℚ) := do
  let sq_wed_top ← custom_round (sq_max * 0.75) round_val
  let top ← custom_round sq_wed_top round_val
  ([0.5, 0.625, 0.75, 1.0] : List ℚ).mapM (fun i => custom_round (top * i) round_val)

instance {ε α : Type} [DecidableEq ε] [DecidableEq α] : DecidableEq (Except ε α) :=
  fun a b =>
    match a, b with
    | Except.ok x, Except.ok y =>
        if h : x = y then isTrue (congrArg Except.ok h)
        else isFalse (fun hc => h (Except.ok.inj hc))
    | Except.error x, Except.error y =>
        if h : x = y then isTrue (congrArg Except.error h)
        else isFalse (fun hc => h (Except.error.inj hc))
    | Except.ok _, Except.error _ => isFalse (fun hc => Except.noConfusion hc)
    | Except.error _, Except.ok _ => isFalse (fun hc => Except.noConfusion hc)

/-! ## Basic lemmas about the rounder -/

lemma pyRound_intCast (n : ℤ) : pyRound (n : ℚ) = n := by
  unfold pyRound
  rw [Int.floor_intCast]
  norm_num

lemma pyRound_sub_abs_le (q : ℚ) : |(pyRound q : ℚ) - q| ≤ 1/2 := by
  unfold pyRound
  have h0 : (⌊q⌋ : ℚ) ≤ q := Int.floor_le q
  have h1 : q < ⌊q⌋ + 1 := Int.lt_floor_add_one q
  split_ifs with hlt hgt hev
  · rw [abs_le]; constructor <;> push_cast <;> linarith
  · rw [abs_le]; constructor <;> push_cast <;> linarith
  · rw [abs_le]; constructor <;> push_cast <;> linarith
  · rw [abs_le]; constructor <;> push_cast <;> linarith

lemma floor_le_pyRound (q : ℚ) : ⌊q⌋ ≤ pyRound q := by
  unfold pyRound
  split_ifs <;> omega

lemma pyRound_le_floor_add_one (q : ℚ) : pyRound q ≤ ⌊q⌋ + 1 := by
  unfold pyRound
  split_ifs <;> omega

lemma pyRound_mono {q r : ℚ} (h : q ≤ r) : pyRound q ≤ pyRound r := by
  rcases lt_or_eq_of_le (Int.floor_le_floor h) with hf | hf
  · calc pyRound q ≤ ⌊q⌋ + 1 := pyRound_le_floor_add_one q
      _ ≤ ⌊r⌋ := by omega
      _ ≤ pyRound r := floor_le_pyRound r
  · unfold pyRound
    rw [← hf]
    split_ifs <;> first | omega | linarith

lemma custom_round_of_ne_zero {base : ℚ} (hb : base ≠ 0) (x : ℚ) :
    custom_round x base = Except.ok (base * pyRound (x / base)) := by
  unfold custom_round
  rw [if_neg hb]

/-- Rounding a value that is already an integer multiple of the base is the
identity. -/
lemma custom_round_mul_int {base : ℚ} (hb : base ≠ 0) (k : ℤ) :
    custom_round (base * k) base = Except.ok (base * k) := by
  rw [custom_round_of_ne_zero hb]
  rw [mul_comm base (k : ℚ), mul_div_assoc, div_self hb, mul_one, pyRound_intCast, mul_comm]

/-! ## C5: the rounder returns a multiple of the increment within inc/2 -/

/-- C5: for every value `v` and increment `inc > 0`, `custom_round v inc`
succeeds with a multiple of `inc` that differs from `v` by at most `inc / 2`. -/
theorem C5_round_multiple_and_close (v inc : ℚ) (hinc : 0 < inc) :
    ∃ y, custom_round v inc = Except.ok y ∧
      (∃ k : ℤ, y = k * inc) ∧ |y - v| ≤ inc / 2 := by
  refine ⟨inc * pyRound (v / inc), custom_round_of_ne_zero hinc.ne' v,
    ⟨pyRound (v / inc), mul_comm inc ((pyRound (v / inc) : ℤ) : ℚ)⟩, ?_⟩
  have harg : inc * (pyRound (v / inc) : ℚ) - v = inc * ((pyRound (v / inc) : ℚ) - v / inc) := by
    field_simp
    ring
  rw [harg, abs_mul, abs_of_pos hinc]
  have h2 := pyRound_sub_abs_le (v / inc)
  have h3 := mul_le_mul_of_nonneg_left h2 hinc.le
  linarith

/-- Witness for C5 at `v = 12`, `inc = 5`. -/
theorem C5_witness :
    0 < (5 : ℚ) ∧ ∃ y, custom_round 12 5 = Except.ok y ∧
      (∃ k : ℤ, y = k * 5) ∧ |y - 12| ≤ 5 / 2 :=
  ⟨by norm_num, C5_round_multiple_and_close 12 5 (by norm_num)⟩

/-! ## C9: target at or below bar weight gives the empty-load sentinel -/

/-- C9: whenever `target_weight ≤ bar_weight`, `get_plate_breakdown` returns
the distinguished `"Empty Bar"` sentinel, not an error. -/
theorem C9_empty_bar_sentinel (t b : ℚ) (h : t ≤ b) :
    get_plate_breakdown t b = PlateBreakdown.emptyBar := by
  unfold get_plate_breakdown
  rw [if_pos h]

/-- Witness for C9 at `target = 40`, `bar = 45`. -/
theorem C9_witness :
    (40 : ℚ) ≤ 45 ∧ get_plate_breakdown 40 45 = PlateBreakdown.emptyBar :=
  ⟨by norm_num, C9_empty_bar_sentinel 40 45 (by norm_num)⟩

/-! ## C8: behaviour of the rounder on non-positive increments -/

/-- C8 counterexample: the claim says every `inc ≤ 0` is guarded and reported
as an error. In the source there is no guard at all: for `inc = -5 ≤ 0` the
code silently returns the value `10` (no error condition), and for `inc = 0`
the division raises `ZeroDivisionError`, which no caller in src/app.py
catches. -/
theorem C8_cex :
    custom_round 12 (-5) = Except.ok 10 ∧
    custom_round 12 0 = Except.error "ZeroDivisionError" := by
  constructor
  · norm_num [custom_round, pyRound]
  · rfl

/-- C8 (amended): `custom_round` has no guard: with increment `0` the
division raises `ZeroDivisionError` (propagated, uncaught), and with a
negative increment it silently computes `inc * round(v / inc)`, a multiple
of `inc`, reporting no error. -/
theorem C8_no_guard (v : ℚ) :
    custom_round v 0 = Except.error "ZeroDivisionError" ∧
    (∀ inc : ℚ, inc < 0 → ∃ k : ℤ, custom_round v inc = Except.ok (inc * k)) :=
  ⟨rfl, fun inc hinc => ⟨pyRound (v / inc), custom_round_of_ne_zero hinc.ne v⟩⟩

/-- Witness for C8 (amended) at `v = 12`, `inc = -5`. -/
theorem C8_witness :
    custom_round (12 : ℚ) 0 = Except.error "ZeroDivisionError" ∧
    (-5 : ℚ) < 0 ∧ ∃ k : ℤ, custom_round (12 : ℚ) (-5) = Except.ok ((-5 : ℚ) * (k : ℚ)) :=
  ⟨(C8_no_guard 12).1, by norm_num, (C8_no_guard 12).2 (-5) (by norm_num)⟩

/-! ## C10: ties are resolved half-to-even (banker's rounding) -/

/-- C10: a value exactly halfway between the multiples `k * inc` and
`(k + 1) * inc` rounds to the multiple with the even quotient; in
particular `custom_round 12.5 5 = 10` and `custom_round 17.5 5 = 20`. -/
theorem C10_half_to_even :
    (∀ (k : ℤ) (inc : ℚ), 0 < inc →
      custom_round ((2 * k + 1) * inc / 2) inc =
        Except.ok ((if k % 2 = 0 then (k : ℚ) else (k : ℚ) + 1) * inc)) ∧
    custom_round 12.5 5 = Except.ok 10 ∧
    custom_round 17.5 5 = Except.ok 20 := by
  refine ⟨?_, by norm_num [custom_round, pyRound], by norm_num [custom_round, pyRound]⟩
  intro k inc hinc
  rw [custom_round_of_ne_zero hinc.ne']
  have harg : (2 * (k : ℚ) + 1) * inc / 2 / inc = (k : ℚ) + 1 / 2 := by
    field_simp
    ring
  rw [harg]
  have hfl : ⌊(k : ℚ) + 1 / 2⌋ = k := by
    rw [add_comm, Int.floor_add_int]
    norm_num [Int.floor_eq_zero_iff]
  unfold pyRound
  rw [hfl]
  rw [if_neg (by intro hc; linarith), if_neg (by intro hc; linarith)]
  split_ifs <;> push_cast <;> ring

/-! ## Helpers for evaluating the Except-valued pipeline -/

lemma ok_bind {ε α β : Type} (a : α) (f : α → Except ε β) :
    (Except.ok a : Except ε α) >>= f = f a := rfl

lemma pure_eq_ok {ε α : Type} (a : α) : (pure a : Except ε α) = Except.ok a := rfl

lemma pyRound_base_mul {base : ℚ} (hb : base ≠ 0) (k : ℤ) :
    base * (pyRound (base * (k : ℚ) / base) : ℚ) = base * (k : ℚ) := by
  rw [mul_comm base ((k : ℤ) : ℚ), mul_div_assoc, div_self hb, mul_one, pyRound_intCast,
    mul_comm]

lemma ramps_eval {top inc : ℚ} (hinc : inc ≠ 0) :
    get_madcow_ramps top inc = Except.ok
      [inc * pyRound (top * 0.50 / inc), inc * pyRound (top * 0.625 / inc),
       inc * pyRound (top * 0.75 / inc), inc * pyRound (top * 0.875 / inc)] := by
  simp [get_madcow_ramps, List.mapM, List.mapM.loop, custom_round_of_ne_zero hinc,
    ok_bind, pure_eq_ok]

/-! ## C6: shape of the ramp ladder -/

/-- C6 counterexample: the claim quantifies over every `topWeight`, but it
fails for a negative top weight: at `topWeight = -100`, `inc = 5` the code
produces `[-50, -60, -75, -90]`, which is not non-decreasing. -/
theorem C6_cex :
    get_madcow_ramps (-100) 5 = Except.ok [-50, -60, -75, -90] ∧
    ¬ ([-50, -60, -75, -90] : List ℚ).Sorted (· ≤ ·) := by
  constructor
  · rw [ramps_eval (by norm_num : (5 : ℚ) ≠ 0)]
    norm_num [pyRound]
  · simp [List.Sorted]
    norm_num

/-- C6 (amended): for every `topWeight ≥ 0` and increment `inc > 0`,
`get_madcow_ramps` returns exactly 4 non-decreasing values, each a multiple
of `inc`, obtained by rounding the ladder `[0.50, 0.625, 0.75, 0.875]` of
the top weight; the 4th element is the rounded 87.5% ramp, not the top
weight itself. -/
theorem C6_ramps_shape (top inc : ℚ) (htop : 0 ≤ top) (hinc : 0 < inc) :
    ∃ l, get_madcow_ramps top inc = Except.ok l ∧ l.length = 4 ∧
      l.Sorted (· ≤ ·) ∧ (∀ x ∈ l, ∃ k : ℤ, x = (k : ℚ) * inc) ∧
      ∃ r4, custom_round (top * 0.875) inc = Except.ok r4 ∧ l.getLast? = some r4 := by
  have hne := hinc.ne'
  have hmono : ∀ a c : ℚ, a ≤ c →
      inc * (pyRound (top * a / inc) : ℚ) ≤ inc * (pyRound (top * c / inc) : ℚ) := by
    intro a c hac
    have h1 : top * a / inc ≤ top * c / inc := by gcongr
    exact mul_le_mul_of_nonneg_left (by exact_mod_cast pyRound_mono h1) hinc.le
  refine ⟨_, ramps_eval hne, rfl, ?_, ?_, _, custom_round_of_ne_zero hne _, rfl⟩
  · have h12 := hmono 0.50 0.625 (by norm_num)
    have h23 := hmono 0.625 0.75 (by norm_num)
    have h34 := hmono 0.75 0.875 (by norm_num)
    have hch : List.Chain' (· ≤ ·) [inc * (pyRound (top * 0.50 / inc) : ℚ),
        inc * (pyRound (top * 0.625 / inc) : ℚ), inc * (pyRound (top * 0.75 / inc) : ℚ),
        inc * (pyRound (top * 0.875 / inc) : ℚ)] := by
      simp only [List.chain'_cons, List.chain'_singleton, and_true]
      exact ⟨h12, h23, h34⟩
    exact List.chain'_iff_pairwise.mp hch
  · intro x hx
    simp only [List.mem_cons, List.not_mem_nil, or_false] at hx
    rcases hx with rfl | rfl | rfl | rfl
    · exact ⟨pyRound (top * 0.50 / inc), mul_comm inc _⟩
    · exact ⟨pyRound (top * 0.625 / inc), mul_comm inc _⟩
    · exact ⟨pyRound (top * 0.75 / inc), mul_comm inc _⟩
    · exact ⟨pyRound (top * 0.875 / inc), mul_comm inc _⟩

/-- Witness for C6 (amended) at `top = 150`, `inc = 5`. -/
theorem C6_witness :
    (0 : ℚ) ≤ 150 ∧ (0 : ℚ) < 5 ∧
    ∃ l, get_madcow_ramps 150 5 = Except.ok l ∧ l.length = 4 ∧
      l.Sorted (· ≤ ·) ∧ (∀ x ∈ l, ∃ k : ℤ, x = (k : ℚ) * 5) ∧
      ∃ r4, custom_round (150 * 0.875) 5 = Except.ok r4 ∧ l.getLast? = some r4 :=
  ⟨by norm_num, by norm_num, C6_ramps_shape 150 5 (by norm_num) (by norm_num)⟩

/-! ## C7: Wednesday's (Day B) squat card -/

/-- C7 counterexample: at `squatCurrentMax = 200`, `R = 5` the code's
Wednesday squat sets are `[75, 95, 110, 150]` — the last entry is the full
reduced top (`1.0` tier), whereas the claimed ladder
`[0.50, 0.625, 0.75, 0.75]` would end at `110`. -/
theorem C7_cex :
    wed_squat_sets 200 5 = Except.ok [75, 95, 110, 150] ∧
    ([0.5, 0.625, 0.75, 0.75] : List ℚ).mapM (fun i => custom_round (150 * i) 5) =
      Except.ok [75, 95, 110, 110] ∧
    (150 : ℚ) ≠ 110 := by
  refine ⟨?_, ?_, by norm_num⟩
  · norm_num [wed_squat_sets, List.mapM, List.mapM.loop, custom_round, pyRound,
      ok_bind, pure_eq_ok, -Int.self_sub_floor]
  · norm_num [List.mapM, List.mapM.loop, custom_round, pyRound, ok_bind, pure_eq_ok,
      -Int.self_sub_floor]

/-- C7 (amended): on Day B the squat top set is
`custom_round(0.75 * squatCurrentMax, R)`, and the squat's ramp sequence is
the ladder `[0.5, 0.625, 0.75, 1.0]` of that reduced top: the 4th set is the
reduced top itself, not a repeat of the 0.75 tier. -/
theorem C7_wed_squat (sq_max R : ℚ) (hR : R ≠ 0) :
    ∃ t a b c, custom_round (sq_max * 0.75) R = Except.ok t ∧
      wed_squat_sets sq_max R = Except.ok [a, b, c, t] ∧
      custom_round (t * 0.5) R = Except.ok a ∧
      custom_round (t * 0.625) R = Except.ok b ∧
      custom_round (t * 0.75) R = Except.ok c := by
  refine ⟨R * (pyRound (sq_max * 0.75 / R) : ℚ),
    R * (pyRound (R * (pyRound (sq_max * 0.75 / R) : ℚ) * 0.5 / R) : ℚ),
    R * (pyRound (R * (pyRound (sq_max * 0.75 / R) : ℚ) * 0.625 / R) : ℚ),
    R * (pyRound (R * (pyRound (sq_max * 0.75 / R) : ℚ) * 0.75 / R) : ℚ),
    custom_round_of_ne_zero hR _, ?_,
    custom_round_of_ne_zero hR _, custom_round_of_ne_zero hR _, custom_round_of_ne_zero hR _⟩
  have h41 : R * (pyRound (R * (pyRound (sq_max * 0.75 / R) : ℚ) * 1.0 / R) : ℚ)
      = R * (pyRound (sq_max * 0.75 / R) : ℚ) := by
    rw [show R * (pyRound (sq_max * 0.75 / R) : ℚ) * 1.0
        = R * (pyRound (sq_max * 0.75 / R) : ℚ) by norm_num]
    exact pyRound_base_mul hR _
  unfold wed_squat_sets
  rw [custom_round_of_ne_zero hR (sq_max * 0.75), ok_bind,
    custom_round_mul_int hR (pyRound (sq_max * 0.75 / R)), ok_bind]
  simp only [List.mapM, List.mapM.loop, custom_round_of_ne_zero hR, ok_bind, pure_eq_ok,
    List.reverse_nil, List.reverse_cons, List.nil_append, List.cons_append]
  rw [h41]

/-- Witness for C7 (amended) at `sq_max = 200`, `R = 5`. -/
theorem C7_witness :
    (5 : ℚ) ≠ 0 ∧
    ∃ t a b c, custom_round (200 * 0.75) 5 = Except.ok t ∧
      wed_squat_sets 200 5 = Except.ok [a, b, c, t] ∧
      custom_round (t * 0.5) 5 = Except.ok a ∧
      custom_round (t * 0.625) 5 = Except.ok b ∧
      custom_round (t * 0.75) 5 = Except.ok c :=
  ⟨by norm_num, C7_wed_squat 200 5 (by norm_num)⟩

/-! ## C4: the greedy plate breakdown -/

lemma sumPlates_cons (p : ℚ) (n : ℕ) (l : List (ℚ × ℕ)) :
    sumPlates ((p, n) :: l) = p * (n : ℚ) + sumPlates l := by
  simp [sumPlates]

lemma roundTo2_int_div (j : ℤ) : roundTo2 ((j : ℚ) / 100) = (j : ℚ) / 100 := by
  unfold roundTo2
  rw [div_mul_cancel₀ _ (by norm_num : (100 : ℚ) ≠ 0), pyRound_intCast]

/-- Greedy invariant: when every plate and the running remainder live on the
0.01 grid (so the 2-decimal re-rounding of src/app.py line 63 is the
identity), the emitted total never exceeds the starting remainder. -/
lemma greedy_sum_le (plates : List ℚ)
    (hp : ∀ p ∈ plates, 0 < p ∧ ∃ m : ℤ, p = (m : ℚ) / 100) :
    ∀ r : ℚ, 0 ≤ r → (∃ k : ℤ, r = (k : ℚ) / 100) →
      sumPlates (greedyPlates plates r) ≤ r := by
  induction plates with
  | nil =>
    intro r hr _
    simpa [greedyPlates, sumPlates] using hr
  | cons p rest ih =>
    intro r hr hk
    obtain ⟨k, hkr⟩ := hk
    obtain ⟨hppos, m, hm⟩ := hp p (List.mem_cons_self p rest)
    have hrest : ∀ q ∈ rest, 0 < q ∧ ∃ m2 : ℤ, q = (m2 : ℚ) / 100 :=
      fun q hq => hp q (List.mem_cons_of_mem p hq)
    simp only [greedyPlates]
    by_cases hc : 0 < ⌊r / p⌋
    · rw [if_pos hc]
      have hfl : (⌊r / p⌋ : ℚ) ≤ r / p := Int.floor_le (r / p)
      have hcp : (⌊r / p⌋ : ℚ) * p ≤ r := by
        have := mul_le_mul_of_nonneg_right hfl hppos.le
        rwa [div_mul_cancel₀ r hppos.ne'] at this
      have hsub : r - (⌊r / p⌋ : ℚ) * p = ((k - ⌊r / p⌋ * m : ℤ) : ℚ) / 100 := by
        rw [hkr, hm]
        push_cast
        ring
      have hround : roundTo2 (r - (⌊r / p⌋ : ℚ) * p) = r - (⌊r / p⌋ : ℚ) * p := by
        rw [hsub, roundTo2_int_div]
      rw [hround, sumPlates_cons]
      have hrec := ih hrest (r - (⌊r / p⌋ : ℚ) * p) (by linarith) ⟨k - ⌊r / p⌋ * m, hsub⟩
      have hnat : ((⌊r / p⌋.toNat : ℕ) : ℚ) = (⌊r / p⌋ : ℚ) := by
        exact_mod_cast congrArg (fun z : ℤ => (z : ℚ)) (Int.toNat_of_nonneg hc.le)
      rw [hnat]
      linarith
    · rw [if_neg hc]
      exact ih hrest r hr ⟨k, hkr⟩

/-- C4 counterexample: at `target = 136.992`, `bar = 45` (perSide `45.996`)
the 2-decimal re-rounding of the remainder after the 45 plate rounds
`0.996` up to `1.0`, the code then emits a 1-lb plate, and the emitted total
`46` exceeds perSide. -/
theorem C4_cex :
    get_plate_breakdown (136.992 : ℚ) 45 = PlateBreakdown.plates [(45, 1), (1, 1)] ∧
    ((136.992 : ℚ) - 45) / 2 < sumPlates [(45, 1), (1, 1)] := by
  constructor
  · norm_num [get_plate_breakdown, available_plates, greedyPlates, roundTo2, pyRound]
    simp
  · norm_num [sumPlates]

/-- C4 (amended): for `target > bar`, the breakdown is the greedy consumption
of the descending denomination set `[45, 35, 25, 10, 5, 2.5, 1, 0.5]` with
`count = floor(remaining / d)` per denomination; provided perSide
`(target - bar)/2` is a multiple of `0.01` (so the per-step 2-decimal
re-rounding is exact), the emitted total never exceeds perSide; and
`plates_per_side(145, 45) = [(45,1),(5,1)]`. -/
theorem C4_plate_breakdown (t b : ℚ) (hbt : b < t)
    (hgrid : ∃ k : ℤ, (t - b) / 2 = (k : ℚ) / 100) :
    get_plate_breakdown t b =
      (if greedyPlates available_plates ((t - b) / 2) = [] then PlateBreakdown.barOnly
       else PlateBreakdown.plates (greedyPlates available_plates ((t - b) / 2))) ∧
    sumPlates (greedyPlates available_plates ((t - b) / 2)) ≤ (t - b) / 2 ∧
    get_plate_breakdown 145 45 = PlateBreakdown.plates [(45, 1), (5, 1)] := by
  refine ⟨?_, ?_, ?_⟩
  · unfold get_plate_breakdown
    rw [if_neg (not_le.mpr hbt)]
  · apply greedy_sum_le
    · intro p hp
      simp only [available_plates, List.mem_cons, List.not_mem_nil, or_false] at hp
      rcases hp with rfl | rfl | rfl | rfl | rfl | rfl | rfl | rfl
      · exact ⟨by norm_num, 4500, by norm_num⟩
      · exact ⟨by norm_num, 3500, by norm_num⟩
      · exact ⟨by norm_num, 2500, by norm_num⟩
      · exact ⟨by norm_num, 1000, by norm_num⟩
      · exact ⟨by norm_num, 500, by norm_num⟩
      · exact ⟨by norm_num, 250, by norm_num⟩
      · exact ⟨by norm_num, 100, by norm_num⟩
      · exact ⟨by norm_num, 50, by norm_num⟩
    · linarith
    · exact hgrid
  · norm_num [get_plate_breakdown, available_plates, greedyPlates, roundTo2, pyRound]
    simp

/-- Witness for C4 (amended) at `target = 145`, `bar = 45`. -/
theorem C4_witness :
    (45 : ℚ) < 145 ∧ (∃ k : ℤ, ((145 : ℚ) - 45) / 2 = (k : ℚ) / 100) ∧
    (get_plate_breakdown 145 45 =
      (if greedyPlates available_plates (((145 : ℚ) - 45) / 2) = [] then PlateBreakdown.barOnly
       else PlateBreakdown.plates (greedyPlates available_plates (((145 : ℚ) - 45) / 2))) ∧
     sumPlates (greedyPlates available_plates (((145 : ℚ) - 45) / 2)) ≤ ((145 : ℚ) - 45) / 2 ∧
     get_plate_breakdown 145 45 = PlateBreakdown.plates [(45, 1), (5, 1)]) :=
  ⟨by norm_num, ⟨5000, by norm_num⟩,
    C4_plate_breakdown 145 45 (by norm_num) ⟨5000, by norm_num⟩⟩

/-! ## C1: lookup of an absent (lifter, lift) pair -/

/-- C1 counterexample: the bare `except: return 0, 0` of src/app.py line 154
makes a missing (lifter, lift) lookup return `(0, 0)` — exactly the value a
present record with zero max and zero increment produces, so there is no
NOT_FOUND signal distinguishable from valid zero data. -/
theorem C1_cex :
    get_stats [] "Dylan" "Bench" 4 = (0, 0) ∧
    get_stats [⟨"Dylan", "Bench", 0, 0⟩] "Dylan" "Bench" 4 = (0, 0) := by
  constructor
  · rfl
  · norm_num [get_stats, current_max, List.find?]

/-- C1 (amended): lookup of any (lifter, lift) pair absent from the table
returns the plain value `(0, 0)`, the same value returned for a present
record whose max and increment are 0 — a zero masquerading as valid data,
with no distinguishable NOT_FOUND condition. -/
theorem C1_absent_lookup (table : List LiftRecord) (u l : String) (w : ℤ)
    (h : table.find? (fun r => r.user == u && r.lift == l) = none) :
    get_stats table u l w = (0, 0) ∧
    ∀ w2 : ℤ, get_stats [⟨u, l, 0, 0⟩] u l w2 = (0, 0) := by
  constructor
  · unfold get_stats
    rw [h]
  · intro w2
    have hfind : ([⟨u, l, 0, 0⟩] : List LiftRecord).find?
        (fun r => r.user == u && r.lift == l) = some ⟨u, l, 0, 0⟩ := by
      simp [List.find?]
    unfold get_stats
    rw [hfind]
    norm_num [current_max]

/-- Witness for C1 (amended): the empty table at week 7. -/
theorem C1_witness :
    ([] : List LiftRecord).find? (fun r => r.user == "Dylan" && r.lift == "Bench") = none ∧
    get_stats [] "Dylan" "Bench" 7 = (0, 0) :=
  ⟨rfl, (C1_absent_lookup [] "Dylan" "Bench" 7 rfl).1⟩

/-! ## C2: the compound-growth progression anchored at week 4 -/

/-- C2: the projected max returned by `get_stats` for the first matching row
is exactly `current_max Max Increment week`, i.e.
`Max * (1 + Increment/100) ^ (week - 4)`; at the anchor week 4 this equals
the baseline exactly; for a positive baseline and positive increment, weeks
1-3 give strictly smaller values and weeks 5 and later strictly larger
ones. -/
theorem C2_progression :
    (∀ (table : List LiftRecord) (u l : String) (w : ℤ) (row : LiftRecord),
        table.find? (fun r => r.user == u && r.lift == l) = some row →
        (get_stats table u l w).1 = current_max row.max row.increment w) ∧
    (∀ M I : ℚ, current_max M I 4 = M) ∧
    (∀ (M I : ℚ) (W : ℤ), 0 < M → 0 < I → 1 ≤ W → W ≤ 3 → current_max M I W < M) ∧
    (∀ (M I : ℚ) (W : ℤ), 0 < M → 0 < I → 5 ≤ W → M < current_max M I W) := by
  refine ⟨?_, ?_, ?_, ?_⟩
  · intro table u l w row hfind
    unfold get_stats
    rw [hfind]
    dsimp only
    split_ifs with hg
    · obtain ⟨hz, hw⟩ := hg
      show (0 : ℚ) = current_max row.max row.increment w
      unfold current_max
      rw [hz, zero_zpow (w - 4) (by omega), mul_zero]
    · rfl
  · intro M I
    unfold current_max
    norm_num
  · intro M I W hM hI h1 h3
    have ha : 1 < 1 + I / 100 := by
      have : 0 < I / 100 := by positivity
      linarith
    have hx : (1 + I / 100) ^ (W - 4) < 1 := zpow_lt_one_of_neg₀ ha (by omega)
    exact mul_lt_of_lt_one_right hM hx
  · intro M I W hM hI h5
    have ha : 1 < 1 + I / 100 := by
      have : 0 < I / 100 := by positivity
      linarith
    exact lt_mul_of_one_lt_right hM (one_lt_zpow₀ ha (by omega))

/-- Witness for C2 at the record (Dylan, Squat, 200, 2.5). -/
theorem C2_witness :
    ((([⟨"Dylan", "Squat", 200, 2.5⟩] : List LiftRecord).find?
        (fun r => r.user == "Dylan" && r.lift == "Squat") = some ⟨"Dylan", "Squat", 200, 2.5⟩) ∧
      (get_stats [⟨"Dylan", "Squat", 200, 2.5⟩] "Dylan" "Squat" 6).1 = current_max 200 2.5 6) ∧
    current_max 200 2.5 4 = 200 ∧
    (0 < (200 : ℚ) ∧ 0 < (2.5 : ℚ) ∧ (1 : ℤ) ≤ 3 ∧ (3 : ℤ) ≤ 3 ∧ current_max 200 2.5 3 < 200) ∧
    (0 < (200 : ℚ) ∧ 0 < (2.5 : ℚ) ∧ (5 : ℤ) ≤ 5 ∧ 200 < current_max 200 2.5 5) :=
  ⟨⟨by simp [List.find?],
      C2_progression.1 [⟨"Dylan", "Squat", 200, 2.5⟩] "Dylan" "Squat" 6
        ⟨"Dylan", "Squat", 200, 2.5⟩ (by simp [List.find?])⟩,
    C2_progression.2.1 200 2.5,
    ⟨by norm_num, by norm_num, by norm_num, by norm_num,
      C2_progression.2.2.1 200 2.5 3 (by norm_num) (by norm_num) (by norm_num) (by norm_num)⟩,
    ⟨by norm_num, by norm_num, by norm_num,
      C2_progression.2.2.2 200 2.5 5 (by norm_num) (by norm_num) (by norm_num)⟩⟩

/-! ## C3: cross-week consistency of Friday's triple -/

/-- C3 counterexample: at `M = 200`, `I = -100`, `W = 3`, `R = 5` the growth
base `1 + I/100` is zero, Friday's triple evaluates to `0` while next week's
Monday top is `200`: the two differ by 40 rounding increments, not at most
one. -/
theorem C3_cex :
    friday_triple (current_max 200 (-100) 3) (-100) 5 = Except.ok 0 ∧
    monday_top (current_max 200 (-100) 4) 5 = Except.ok 200 ∧
    ¬ |(0 : ℚ) - 200| ≤ 5 := by
  refine ⟨?_, ?_, by norm_num⟩
  · norm_num [friday_triple, current_max, custom_round, pyRound]
  · norm_num [monday_top, current_max, custom_round, pyRound]

/-- C3 (amended): whenever the growth base `1 + I/100` is nonzero (i.e.
`I ≠ -100`), Friday's triple at week `W` equals next week's Monday top set
exactly — for every rounding increment, with no one-increment tolerance
needed. -/
theorem C3_cross_week (M I R : ℚ) (W : ℤ) (hbase : 1 + I / 100 ≠ 0) :
    friday_triple (current_max M I W) I R = monday_top (current_max M I (W + 1)) R := by
  unfold friday_triple monday_top current_max
  rw [mul_assoc, ← zpow_add_one₀ hbase, show W - 4 + 1 = W + 1 - 4 from by omega]

/-- Witness for C3 (amended) at `M = 200`, `I = 2.5`, `W = 4`, `R = 5`. -/
theorem C3_witness :
    (1 + (2.5 : ℚ) / 100 ≠ 0) ∧
    friday_triple (current_max 200 2.5 4) 2.5 5 = monday_top (current_max 200 2.5 5) 5 :=
  ⟨by norm_num, C3_cross_week 200 2.5 5 4 (by norm_num)⟩

/-- Witness for C10 at `k = 2`, `inc = 5` (the value `12.5`). -/
theorem C10_witness :
    0 < (5 : ℚ) ∧ custom_round ((2 * ((2 : ℤ) : ℚ) + 1) * 5 / 2) 5 =
      Except.ok ((if (2 : ℤ) % 2 = 0 then ((2 : ℤ) : ℚ) else ((2 : ℤ) : ℚ) + 1) * 5) :=
  ⟨by norm_num, C10_half_to_even.1 2 5 (by norm_num)⟩
